import Mathlib

/-!
Verification of the pattern-permutation and execution-orchestration core of
the `git_lfs_scripts` repository (Go sources under `internal/lfsfiles`,
`cmd/git-lfs-track` and `cmd/git-unmigrate`), as a shallow embedding:
pure functions become Lean functions, and the external command runner,
repository checks and standard-stream output become explicit parameters
and an output trace.
-/

namespace GitLfsScripts

/-- Lower-case fold of a whole string, character by character: the model of
Go `strings.ToLower` (on ASCII input both map each character independently
to its lower-case form). -/
def toLowerStr (s : String) : String := String.mk (s.data.map Char.toLower)

/-- Upper-case fold of a whole string, character by character: the model of
Go `strings.ToUpper`. -/
def toUpperStr (s : String) : String := String.mk (s.data.map Char.toUpper)

/-- Command-line options, mirroring `lfsfiles.Options` in
`internal/lfsfiles/lfsfiles.go` (fields `BothCases`, `DryRun`,
`Everywhere`, `Command`). -/
structure Options where
  bothCases : Bool
  dryRun : Bool
  everywhere : Bool
  command : String
deriving DecidableEq, Repr

/-- Embedding of `lfsfiles.ExpandPattern`: expands one file-extension token
into an ordered list of glob strings, branching on `Everywhere` and
`BothCases` exactly as the Go source does, with `lc`/`uc` the lower- and
upper-case folds of the whole token and the single-case branches using the
token verbatim. -/
def ExpandPattern (pattern : String) (opts : Options) : List String :=
  let lc := toLowerStr pattern
  let uc := toUpperStr pattern
  if opts.everywhere then
    if opts.bothCases then
      ["*." ++ lc, "*." ++ uc, "**/*." ++ lc, "**/*." ++ uc]
    else
      ["*." ++ pattern, "**/*." ++ pattern]
  else
    if opts.bothCases then
      ["*." ++ lc, "*." ++ uc]
    else
      ["*." ++ pattern]

/-- One observable effect of `lfsfiles.Execute`: either a dry-run advisory
line printed to stdout, or one external-command invocation (the command
string plus the trailing pattern arguments handed to `executeCommand`). -/
inductive Event where
  | dryRunLine (line : String)
  | invocation (cmd : String) (args : List String)
deriving DecidableEq, Repr

/-- The live-mode loop of `lfsfiles.Execute` ("Execute command for each
pattern"): for each token expand it and run one invocation; the first
invocation whose runner reports an error (`some e`) stops the loop and
that error is returned unchanged. The external command runner is the
explicit parameter `runner` (returning `none` on success, `some e` on a
non-zero exit or start failure). -/
def ExecuteLoop (runner : String → List String → Option String)
    (opts : Options) : List String → List Event × Option String
  | [] => ([], none)
  | p :: rest =>
    let expanded := ExpandPattern p opts
    match runner opts.command expanded with
    | some e => ([Event.invocation opts.command expanded], some e)
    | none =>
      let r := ExecuteLoop runner opts rest
      (Event.invocation opts.command expanded :: r.1, r.2)

/-- Embedding of `lfsfiles.Execute`: dry-run prints one advisory line per
token and succeeds; with no tokens and a `ls-files` command the bare
command is run once; otherwise the per-token invocation loop runs.
The returned pair is (observable events, final error). -/
def Execute (runner : String → List String → Option String)
    (patterns : List String) (opts : Options) : List Event × Option String :=
  if opts.dryRun then
    (patterns.map fun p =>
      Event.dryRunLine
        ("DRY RUN: " ++ opts.command ++ " " ++
          String.intercalate " " (ExpandPattern p opts)), none)
  else if patterns = [] ∧
      (opts.command = "git ls-files" ∨ opts.command = "git lfs ls-files") then
    ([Event.invocation opts.command []], runner opts.command [])
  else
    ExecuteLoop runner opts patterns

/-- Result of the `git-lfs-track` entry point (`cmd/git-lfs-track/main.go`):
either help was printed and the process exited with the given code, or
`lfsfiles.Execute` ran and the process exited with its events and code. -/
inductive TrackMainResult where
  | helpExit (code : Nat)
  | exitCode (events : List Event) (code : Nat)
deriving DecidableEq, Repr

/-- Embedding of `main` in `cmd/git-lfs-track/main.go`: help exits 0, an
empty token list prints help and exits 1 before the core is reached,
otherwise `Execute` runs with command label "git lfs track" and any error
maps to exit code 1. (The `CheckGitRepo` guard is assumed to pass.) -/
def gitLfsTrackMain (runner : String → List String → Option String)
    (showHelp bothCases dryRun everywhere : Bool)
    (patterns : List String) : TrackMainResult :=
  if showHelp then .helpExit 0
  else if patterns = [] then .helpExit 1
  else
    let opts : Options := ⟨bothCases, dryRun, everywhere, "git lfs track"⟩
    match Execute runner patterns opts with
    | (events, none) => .exitCode events 0
    | (events, some _) => .exitCode events 1

/-- One line of terminal output of `git-unmigrate`: the help text (modelled
abstractly, its exact wording is out of scope), a stdout line, or a stderr
line written by `common.PrintError` just before the process exits. -/
inductive OutLine where
  | help
  | out (s : String)
  | err (s : String)
deriving DecidableEq, Repr

/-- External collaborators of `cmd/git-unmigrate/main.go`: the three
repository checks and the four kinds of git invocations it performs, each
reporting `none` on success or `some errorMessage` on failure. -/
structure UnmigrateEnv where
  checkGitRepo : Option String
  checkLFSInstalled : Option String
  checkLFSInitialized : Option String
  runUntrack : List String → Option String
  runAddRenormalize : Option String
  runCommit : Option String
  runPush : Option String

/-- The live untrack pass of `git-unmigrate` ("Untrack patterns from LFS"):
for each token, run `git lfs untrack` on its expansion; a failure calls
`common.PrintError` (stderr line, exit 1), modelled by returning the error
line with `false`; full success returns `true` (successful child output is
pass-through and not part of the program's own lines). -/
def unmigrateUntrackLoop (env : UnmigrateEnv) (opts : Options) :
    List String → List OutLine × Bool
  | [] => ([], true)
  | p :: rest =>
    match env.runUntrack (ExpandPattern p opts) with
    | some e =>
        ([OutLine.err ("Error: Failed to untrack pattern " ++ p ++ ": " ++ e)],
          false)
    | none => unmigrateUntrackLoop env opts rest

/-- The three follow-up steps of `git-unmigrate` after the untrack pass
("Renormalize and commit" through "Pushing changes..."): stage failure is
fatal (exit 1), commit failure merely prints "No changes to commit" and
continues, push failure is fatal; on success the final banner prints and
the process exits 0. -/
def unmigrateFollowUps (env : UnmigrateEnv) : List OutLine × Nat :=
  match env.runAddRenormalize with
  | some e =>
      ([OutLine.out "Renormalizing files...",
        OutLine.err ("Error: Failed to renormalize: " ++ e)], 1)
  | none =>
    let commitLines :=
      match env.runCommit with
      | some _ => [OutLine.out "Committing changes...",
                   OutLine.out "No changes to commit"]
      | none => [OutLine.out "Committing changes..."]
    match env.runPush with
    | some e =>
        (OutLine.out "Renormalizing files..." :: commitLines ++
          [OutLine.out "Pushing changes...",
           OutLine.err ("Error: Failed to push: " ++ e)], 1)
    | none =>
        (OutLine.out "Renormalizing files..." :: commitLines ++
          [OutLine.out "Pushing changes...",
           OutLine.out "Unmigration complete!"], 0)

/-- Embedding of `main` in `cmd/git-unmigrate/main.go`: help exits 0; an
empty token list prints help and exits 1; each failing repository check
prints its error and exits 1; dry run prints one advisory line per token
followed by the three fixed advisory lines and exits 0; otherwise the
untrack pass runs and, if it did not abort, the three follow-up steps.
The returned pair is (program output lines, process exit code). -/
def unmigrateMain (env : UnmigrateEnv)
    (bothCases dryRun everywhere showHelp : Bool)
    (patterns : List String) : List OutLine × Nat :=
  if showHelp then ([OutLine.help], 0)
  else if patterns = [] then ([OutLine.help], 1)
  else
    match env.checkGitRepo with
    | some e => ([OutLine.err ("Error: " ++ e)], 1)
    | none =>
      match env.checkLFSInstalled with
      | some e => ([OutLine.err ("Error: " ++ e)], 1)
      | none =>
        match env.checkLFSInitialized with
        | some e => ([OutLine.err ("Error: " ++ e)], 1)
        | none =>
          let opts : Options := ⟨bothCases, dryRun, everywhere, "git lfs untrack"⟩
          if dryRun then
            ((patterns.map fun p =>
                OutLine.out ("DRY RUN: git lfs untrack " ++
                  String.intercalate " " (ExpandPattern p opts)))
              ++ [OutLine.out "DRY RUN: git add --renormalize .",
                  OutLine.out
                    "DRY RUN: git commit -m \"Restore patterns to Git from Git LFS\"",
                  OutLine.out "DRY RUN: git push"], 0)
          else
            match unmigrateUntrackLoop env opts patterns with
            | (lines, false) => (lines, 1)
            | (lines, true) =>
              let r := unmigrateFollowUps env
              (lines ++ r.1, r.2)

/-- An environment in which every repository check and every external git
invocation succeeds; used to evaluate `unmigrateMain` on concrete inputs. -/
def envAllOk : UnmigrateEnv :=
  ⟨none, none, none, fun _ => none, none, none, none⟩

/-- A command runner on which every invocation succeeds. -/
def runnerAllOk : String → List String → Option String := fun _ _ => none

/-- A command runner that fails (with the exec-style message
"exit status 1") exactly on the invocation whose trailing arguments are
`["*.pdf"]`, and succeeds on every other invocation. -/
def runnerFailLocalPdf : String → List String → Option String :=
  fun _ args => if args = ["*.pdf"] then some "exit status 1" else none

/-- A command runner that fails with the same message as
`runnerFailLocalPdf`, but on the invocation whose trailing arguments are
`["*.zip"]` instead. -/
def runnerFailLocalZip : String → List String → Option String :=
  fun _ args => if args = ["*.zip"] then some "exit status 1" else none

/-- An environment in which the repository checks pass but the
`git lfs untrack` invocation on `["*.mp3"]` fails; every other external
step succeeds. -/
def envUntrackFails : UnmigrateEnv :=
  ⟨none, none, none,
    fun args => if args = ["*.mp3"] then some "exit status 1" else none,
    none, none, none⟩

/-- An environment in which the repository checks pass, every untrack
invocation succeeds, but `git add --renormalize .` fails. -/
def envStageFails : UnmigrateEnv :=
  ⟨none, none, none, fun _ => none, some "exit status 1", none, none⟩

/-- An environment in which the repository checks pass, untrack and staging
succeed, `git commit` fails (e.g. nothing to commit), and `git push`
succeeds. -/
def envCommitFails : UnmigrateEnv :=
  ⟨none, none, none, fun _ => none, none, some "exit status 1", none⟩

/-- An environment in which the repository checks pass, untrack, staging
and commit succeed, but `git push` fails. -/
def envPushFails : UnmigrateEnv :=
  ⟨none, none, none, fun _ => none, none, none, some "exit status 1"⟩

/-- The live-mode loop attempts one invocation per token in input order and
stops at the first failing one: with every token of `ts1` succeeding and
`t` failing with error `e`, the loop's events are exactly one invocation
per token of `ts1 ++ [t]` and the returned error is `e` unchanged; the
tokens of `ts2` are never attempted. -/
theorem ExecuteLoop_first_failure
    (runner : String → List String → Option String) (opts : Options)
    (ts1 : List String) (t : String) (ts2 : List String) (e : String)
    (hsucc : ∀ s ∈ ts1, runner opts.command (ExpandPattern s opts) = none)
    (hfail : runner opts.command (ExpandPattern t opts) = some e) :
    ExecuteLoop runner opts (ts1 ++ t :: ts2) =
      ((ts1 ++ [t]).map fun s =>
        Event.invocation opts.command (ExpandPattern s opts), some e) := by
  induction ts1 with
  | nil => simp [ExecuteLoop, hfail]
  | cons a as ih =>
    have ha := hsucc a (by simp)
    have ih' := ih (fun s hs => hsucc s (by simp [hs]))
    simp [ExecuteLoop, ha, ih']

/-- When every token's invocation succeeds, the live-mode loop attempts
exactly one invocation per token in input order and reports success. -/
theorem ExecuteLoop_all_success
    (runner : String → List String → Option String) (opts : Options)
    (ts : List String)
    (h : ∀ s ∈ ts, runner opts.command (ExpandPattern s opts) = none) :
    ExecuteLoop runner opts ts =
      (ts.map fun s =>
        Event.invocation opts.command (ExpandPattern s opts), none) := by
  induction ts with
  | nil => simp [ExecuteLoop]
  | cons a as ih =>
    have ha := h a (by simp)
    have ih' := ih (fun s hs => h s (by simp [hs]))
    simp [ExecuteLoop, ha, ih']

/-- When every token's `git lfs untrack` invocation succeeds, the untrack
pass of `git-unmigrate` prints nothing of its own and reports that it
completed fully. -/
theorem unmigrateUntrackLoop_success (env : UnmigrateEnv) (opts : Options)
    (ps : List String)
    (h : ∀ p ∈ ps, env.runUntrack (ExpandPattern p opts) = none) :
    unmigrateUntrackLoop env opts ps = ([], true) := by
  induction ps with
  | nil => rfl
  | cons a as ih =>
    have ha := h a (by simp)
    have ih' := ih (fun p hp => h p (by simp [hp]))
    simp [unmigrateUntrackLoop, ha, ih']

/-- The untrack pass of `git-unmigrate` aborts at its first failing token:
with every token of `ts1` succeeding and `t` failing with error `e`, the
pass prints the single error line naming `t` and reports the abort. -/
theorem unmigrateUntrackLoop_abort (env : UnmigrateEnv) (opts : Options)
    (ts1 : List String) (t : String) (ts2 : List String) (e : String)
    (h1 : ∀ s ∈ ts1, env.runUntrack (ExpandPattern s opts) = none)
    (h2 : env.runUntrack (ExpandPattern t opts) = some e) :
    unmigrateUntrackLoop env opts (ts1 ++ t :: ts2) =
      ([OutLine.err ("Error: Failed to untrack pattern " ++ t ++ ": " ++ e)],
        false) := by
  induction ts1 with
  | nil => simp [unmigrateUntrackLoop, h2]
  | cons a as ih =>
    have ha := h1 a (by simp)
    have ih' := ih (fun s hs => h1 s (by simp [hs]))
    simp [unmigrateUntrackLoop, ha, ih']

/-- Claim C1: for every token and every combination of the `bothCases` and
`everywhere` flags, `ExpandPattern` returns a list whose length is
2^[bothCases] * 2^[everywhere], i.e. 1, 2 or 4. -/
theorem C1_expand_length (t : String) (opts : Options) :
    (ExpandPattern t opts).length =
      (if opts.bothCases then 2 else 1) * (if opts.everywhere then 2 else 1) := by
  obtain ⟨bc, dr, ew, cmd⟩ := opts
  cases bc <;> cases ew <;> simp [ExpandPattern]

/-- Claim C2, counterexample: with `bothCases` false and `everywhere` true,
the token "MoV" expands to its verbatim forms `["*.MoV", "**/*.MoV"]`, not
to the lowercase members `["*.mov", "**/*.mov"]` of the claimed
`[local-lower, local-upper, recursive-lower, recursive-upper]` family, so
the result is not a subsequence of that family selected by the flags. -/
theorem C2_counterexample :
    ExpandPattern "MoV" ⟨false, false, true, "git lfs track"⟩ =
      ["*.MoV", "**/*.MoV"] ∧
    ExpandPattern "MoV" ⟨false, false, true, "git lfs track"⟩ ≠
      ["*.mov", "**/*.mov"] := by decide

/-- Claim C2 as amended: the relative order local-before-recursive and
lowercase-before-uppercase is fixed; with `bothCases` set the case
variants are the folded forms (independent of the token's original
casing), while with `bothCases` unset the single emitted variant is the
token verbatim, not its lowercase fold. -/
theorem C2_order (t : String) (opts : Options) :
    ExpandPattern t opts =
      (if opts.bothCases then ["*." ++ toLowerStr t, "*." ++ toUpperStr t]
        else ["*." ++ t]) ++
      (if opts.everywhere then
        (if opts.bothCases then
          ["**/*." ++ toLowerStr t, "**/*." ++ toUpperStr t]
          else ["**/*." ++ t])
        else []) := by
  obtain ⟨bc, dr, ew, cmd⟩ := opts
  cases bc <;> cases ew <;> simp [ExpandPattern]

/-- Claim C3, counterexample: with `bothCases` false, the mixed-case token
"MoV" is not folded to lowercase; the sole local glob is `"*.MoV"`, not
`"*.mov"`. -/
theorem C3_counterexample :
    ExpandPattern "MoV" ⟨false, false, false, "git lfs track"⟩ = ["*.MoV"] ∧
    ExpandPattern "MoV" ⟨false, false, false, "git lfs track"⟩ ≠ ["*.mov"] := by
  decide

/-- Claim C3 as amended: when `bothCases` is false, `ExpandPattern` emits
the token verbatim as the sole case variant — the local glob is
`"*." ++ token` and, when `everywhere` is also set, the recursive glob is
`"**/*." ++ token`; no case folding is applied in this mode. -/
theorem C3_verbatim_single_case (t : String) (opts : Options)
    (h : opts.bothCases = false) :
    ExpandPattern t opts =
      if opts.everywhere then ["*." ++ t, "**/*." ++ t] else ["*." ++ t] := by
  cases hew : opts.everywhere <;> simp [ExpandPattern, h, hew]

/-- Witness for C3: at token "MoV" with `bothCases` false and `everywhere`
true the amended statement holds concretely. -/
theorem C3_witness :
    (⟨false, false, true, ""⟩ : Options).bothCases = false ∧
    ExpandPattern "MoV" ⟨false, false, true, ""⟩ =
      (if (⟨false, false, true, ""⟩ : Options).everywhere
        then ["*." ++ "MoV", "**/*." ++ "MoV"] else ["*." ++ "MoV"]) :=
  ⟨rfl, C3_verbatim_single_case "MoV" ⟨false, false, true, ""⟩ rfl⟩

/-- Claim C4: in dry-run mode, `Execute` emits for each token in input
order exactly one line equal to the literal concatenation
`"DRY RUN: " ++ commandLabel ++ " " ++ join(orderedGlobs, " ")`, runs no
external command (every event is a dry-run line), and returns success
regardless of the tokens. -/
theorem C4_dry_run_output (runner : String → List String → Option String)
    (patterns : List String) (opts : Options) (h : opts.dryRun = true) :
    Execute runner patterns opts =
      (patterns.map fun p =>
        Event.dryRunLine ("DRY RUN: " ++ opts.command ++ " " ++
          String.intercalate " " (ExpandPattern p opts)), none) := by
  simp [Execute, h]

/-- Witness for C4: a concrete two-token dry run of "git lfs track"
produces exactly the two advisory lines and success. -/
theorem C4_witness :
    (⟨false, true, false, "git lfs track"⟩ : Options).dryRun = true ∧
    Execute (fun _ _ => none) ["pdf", "zip"]
        ⟨false, true, false, "git lfs track"⟩ =
      (["pdf", "zip"].map fun p =>
        Event.dryRunLine ("DRY RUN: " ++ "git lfs track" ++ " " ++
          String.intercalate " "
            (ExpandPattern p ⟨false, true, false, "git lfs track"⟩)), none) :=
  ⟨rfl, C4_dry_run_output _ _ _ rfl⟩

/-- Claim C5, counterexample: with tokens `["pdf", "zip"]` in live mode,
a runner failing on the "pdf" invocation and a runner failing on the "zip"
invocation — both with the same underlying message "exit status 1" — make
`Execute` return the identical error `some "exit status 1"` (the
underlying failure verbatim), so the returned error neither wraps the
failure in anything nor identifies the offending token. -/
theorem C5_counterexample :
    (Execute runnerFailLocalPdf ["pdf", "zip"]
        ⟨false, false, false, "git lfs track"⟩ =
      ([Event.invocation "git lfs track" ["*.pdf"]], some "exit status 1")) ∧
    (Execute runnerFailLocalZip ["pdf", "zip"]
        ⟨false, false, false, "git lfs track"⟩ =
      ([Event.invocation "git lfs track" ["*.pdf"],
        Event.invocation "git lfs track" ["*.zip"]], some "exit status 1")) := by
  decide

/-- Claim C5 as amended: in live mode with a non-empty token list,
`Execute` runs exactly one external invocation per token in input order,
and the first invocation that fails aborts the loop immediately so that
subsequent tokens are never attempted; the error returned is the
underlying failure unchanged — it does not name or wrap the offending
token. -/
theorem C5_abort_on_first_failure
    (runner : String → List String → Option String) (opts : Options)
    (hdry : opts.dryRun = false)
    (ts1 : List String) (t : String) (ts2 : List String) (e : String)
    (hsucc : ∀ s ∈ ts1, runner opts.command (ExpandPattern s opts) = none)
    (hfail : runner opts.command (ExpandPattern t opts) = some e) :
    Execute runner (ts1 ++ t :: ts2) opts =
      ((ts1 ++ [t]).map fun s =>
        Event.invocation opts.command (ExpandPattern s opts), some e) := by
  rw [Execute, if_neg (by simp [hdry]), if_neg (by simp)]
  exact ExecuteLoop_first_failure runner opts ts1 t ts2 e hsucc hfail

/-- Witness for C5: concretely, with live options, token "pdf" failing at
once and token "zip" after it, `Execute` attempts only the "pdf"
invocation and returns the raw error. -/
theorem C5_witness :
    (⟨false, false, false, "git lfs track"⟩ : Options).dryRun = false ∧
    (∀ s ∈ ([] : List String), runnerFailLocalPdf "git lfs track"
      (ExpandPattern s ⟨false, false, false, "git lfs track"⟩) = none) ∧
    runnerFailLocalPdf "git lfs track"
      (ExpandPattern "pdf" ⟨false, false, false, "git lfs track"⟩) =
        some "exit status 1" ∧
    Execute runnerFailLocalPdf ([] ++ "pdf" :: ["zip"])
        ⟨false, false, false, "git lfs track"⟩ =
      (([] ++ ["pdf"]).map fun s =>
        Event.invocation "git lfs track"
          (ExpandPattern s ⟨false, false, false, "git lfs track"⟩),
        some "exit status 1") :=
  ⟨rfl, by simp, by decide,
    C5_abort_on_first_failure runnerFailLocalPdf _ rfl [] "pdf" ["zip"]
      "exit status 1" (by simp) (by decide)⟩

/-- Claim C6: in live mode with an empty token list, `Execute` runs the
bare underlying command exactly once with no extra pattern arguments
(passing its outcome through) if and only if the command label is
"git ls-files" or "git lfs ls-files"; the rejection of an empty token list
for track is done by the caller (`git-lfs-track`'s `main` prints help and
exits 1 before the core is reached), not by the core. -/
theorem C6_empty_token_list
    (runner : String → List String → Option String) (opts : Options)
    (hdry : opts.dryRun = false) (bc dr ew : Bool) :
    ((Execute runner [] opts =
        ([Event.invocation opts.command []], runner opts.command [])) ↔
      (opts.command = "git ls-files" ∨ opts.command = "git lfs ls-files")) ∧
    gitLfsTrackMain runner false bc dr ew [] = TrackMainResult.helpExit 1 := by
  refine ⟨⟨fun h => ?_, fun h => ?_⟩, ?_⟩
  · by_contra hc
    push_neg at hc
    obtain ⟨h1, h2⟩ := hc
    rw [Execute, if_neg (by simp [hdry]), if_neg (by simp [h1, h2])] at h
    simp [ExecuteLoop] at h
  · rw [Execute, if_neg (by simp [hdry]), if_pos ⟨rfl, h⟩]
  · rfl

/-- Witness for C6: at the command label "git ls-files" with an
all-succeeding runner, both parts of the statement hold concretely. -/
theorem C6_witness :
    ((Execute runnerAllOk [] ⟨false, false, false, "git ls-files"⟩ =
        ([Event.invocation "git ls-files" []], runnerAllOk "git ls-files" [])) ↔
      ("git ls-files" = "git ls-files" ∨ "git ls-files" = "git lfs ls-files")) ∧
    gitLfsTrackMain runnerAllOk false false false false [] =
      TrackMainResult.helpExit 1 :=
  C6_empty_token_list runnerAllOk
    ⟨false, false, false, "git ls-files"⟩ rfl false false false

/-- Claim C7: no deduplication is performed — for a token whose lowercase
and uppercase folds coincide, `bothCases` still emits both variants, so
the local glob appears twice (and the recursive glob twice when
`everywhere` is also set). -/
theorem C7_no_dedup (t : String) (opts : Options)
    (hb : opts.bothCases = true) (heq : toLowerStr t = toUpperStr t) :
    ExpandPattern t opts =
      if opts.everywhere then
        ["*." ++ toLowerStr t, "*." ++ toLowerStr t,
          "**/*." ++ toLowerStr t, "**/*." ++ toLowerStr t]
      else
        ["*." ++ toLowerStr t, "*." ++ toLowerStr t] := by
  cases hew : opts.everywhere <;> simp [ExpandPattern, hb, hew, ← heq]

/-- Witness for C7: the token "123" has no alphabetic characters, its folds
coincide, and with both flags set the duplicate globs are all emitted. -/
theorem C7_witness :
    (⟨true, false, true, ""⟩ : Options).bothCases = true ∧
    toLowerStr "123" = toUpperStr "123" ∧
    ExpandPattern "123" ⟨true, false, true, ""⟩ =
      (if (⟨true, false, true, ""⟩ : Options).everywhere then
        ["*." ++ toLowerStr "123", "*." ++ toLowerStr "123",
          "**/*." ++ toLowerStr "123", "**/*." ++ toLowerStr "123"]
      else
        ["*." ++ toLowerStr "123", "*." ++ toLowerStr "123"]) :=
  ⟨rfl, by decide, C7_no_dedup "123" ⟨true, false, true, ""⟩ rfl (by decide)⟩

/-- After help and the empty-token rejection are passed and the three
repository checks succeed, the live path of `git-unmigrate` is the untrack
pass followed, only if it completed fully, by the three follow-up steps. -/
theorem unmigrateMain_live (env : UnmigrateEnv) (bc ew : Bool)
    (patterns : List String) (hne : patterns ≠ [])
    (hg : env.checkGitRepo = none) (hli : env.checkLFSInstalled = none)
    (hln : env.checkLFSInitialized = none) :
    unmigrateMain env bc false ew false patterns =
      (match unmigrateUntrackLoop env ⟨bc, false, ew, "git lfs untrack"⟩
          patterns with
        | (lines, false) => (lines, 1)
        | (lines, true) =>
          (lines ++ (unmigrateFollowUps env).1, (unmigrateFollowUps env).2)) := by
  rw [unmigrateMain, if_neg (by simp), if_neg hne, hg, hli, hln]
  rfl

/-- Claim C8, counterexample: with zero tokens and the dry-run flag set,
`git-unmigrate` prints its help text and exits 1 before the dry-run block
is reached, so none of the three fixed advisory lines is printed —
contradicting "independent of how many tokens were supplied, even zero". -/
theorem C8_counterexample :
    unmigrateMain envAllOk false true false false [] = ([OutLine.help], 1) ∧
    OutLine.out "DRY RUN: git add --renormalize ." ∉
      (unmigrateMain envAllOk false true false false []).1 := by decide

/-- Claim C8 as amended: in dry-run mode with a non-empty token list (and
the repository checks passing), `git-unmigrate` prints one untrack
advisory line per token in input order followed by exactly three fixed
advisory lines — stage-with-renormalization, commit, push — in that fixed
order, for any number (at least one) of tokens; with zero tokens the
program prints help and exits 1 before any advisory output. -/
theorem C8_dry_run_advisories (env : UnmigrateEnv) (bc ew : Bool)
    (patterns : List String) (hne : patterns ≠ [])
    (hg : env.checkGitRepo = none) (hli : env.checkLFSInstalled = none)
    (hln : env.checkLFSInitialized = none) :
    unmigrateMain env bc true ew false patterns =
      ((patterns.map fun p =>
          OutLine.out ("DRY RUN: git lfs untrack " ++
            String.intercalate " "
              (ExpandPattern p ⟨bc, true, ew, "git lfs untrack"⟩)))
        ++ [OutLine.out "DRY RUN: git add --renormalize .",
            OutLine.out
              "DRY RUN: git commit -m \"Restore patterns to Git from Git LFS\"",
            OutLine.out "DRY RUN: git push"], 0) := by
  rw [unmigrateMain, if_neg (by simp), if_neg hne, hg, hli, hln]
  rfl

/-- Witness for C8: a concrete one-token dry run prints the single untrack
advisory line and then the three fixed follow-up lines. -/
theorem C8_witness :
    (["mp3"] : List String) ≠ [] ∧
    envAllOk.checkGitRepo = none ∧
    envAllOk.checkLFSInstalled = none ∧
    envAllOk.checkLFSInitialized = none ∧
    unmigrateMain envAllOk false true false false ["mp3"] =
      ((["mp3"].map fun p =>
          OutLine.out ("DRY RUN: git lfs untrack " ++
            String.intercalate " "
              (ExpandPattern p ⟨false, true, false, "git lfs untrack"⟩)))
        ++ [OutLine.out "DRY RUN: git add --renormalize .",
            OutLine.out
              "DRY RUN: git commit -m \"Restore patterns to Git from Git LFS\"",
            OutLine.out "DRY RUN: git push"], 0) :=
  ⟨by simp, rfl, rfl, rfl,
    C8_dry_run_advisories envAllOk false false ["mp3"] (by simp) rfl rfl rfl⟩

/-- Claim C9: in live mode (repository checks passing), if the untrack pass
aborts at some token the three follow-up steps are skipped entirely; if it
completes fully they run exactly once in order — stage failure is fatal
(exit 1, commit and push never reached), commit failure is non-fatal (only
"No changes to commit" is printed and execution proceeds to push), and
push failure is fatal. -/
theorem C9_followup_policy (env : UnmigrateEnv) (bc ew : Bool)
    (hg : env.checkGitRepo = none) (hli : env.checkLFSInstalled = none)
    (hln : env.checkLFSInitialized = none) :
    (∀ ts1 t ts2 e,
      (∀ s ∈ ts1,
        env.runUntrack (ExpandPattern s ⟨bc, false, ew, "git lfs untrack"⟩)
          = none) →
      env.runUntrack (ExpandPattern t ⟨bc, false, ew, "git lfs untrack"⟩)
        = some e →
      unmigrateMain env bc false ew false (ts1 ++ t :: ts2) =
        ([OutLine.err ("Error: Failed to untrack pattern " ++ t ++ ": " ++ e)],
          1)) ∧
    (∀ patterns e, patterns ≠ [] →
      (∀ p ∈ patterns,
        env.runUntrack (ExpandPattern p ⟨bc, false, ew, "git lfs untrack"⟩)
          = none) →
      env.runAddRenormalize = some e →
      unmigrateMain env bc false ew false patterns =
        ([OutLine.out "Renormalizing files...",
          OutLine.err ("Error: Failed to renormalize: " ++ e)], 1)) ∧
    (∀ patterns ec, patterns ≠ [] →
      (∀ p ∈ patterns,
        env.runUntrack (ExpandPattern p ⟨bc, false, ew, "git lfs untrack"⟩)
          = none) →
      env.runAddRenormalize = none →
      env.runCommit = some ec →
      env.runPush = none →
      unmigrateMain env bc false ew false patterns =
        ([OutLine.out "Renormalizing files...",
          OutLine.out "Committing changes...",
          OutLine.out "No changes to commit",
          OutLine.out "Pushing changes...",
          OutLine.out "Unmigration complete!"], 0)) ∧
    (∀ patterns ep, patterns ≠ [] →
      (∀ p ∈ patterns,
        env.runUntrack (ExpandPattern p ⟨bc, false, ew, "git lfs untrack"⟩)
          = none) →
      env.runAddRenormalize = none →
      env.runPush = some ep →
      unmigrateMain env bc false ew false patterns =
        (OutLine.out "Renormalizing files..." ::
          (match env.runCommit with
            | some _ => [OutLine.out "Committing changes...",
                         OutLine.out "No changes to commit"]
            | none => [OutLine.out "Committing changes..."]) ++
          [OutLine.out "Pushing changes...",
           OutLine.err ("Error: Failed to push: " ++ ep)], 1)) := by
  refine ⟨fun ts1 t ts2 e h1 h2 => ?_, fun patterns e hne hall ha => ?_,
    fun patterns ec hne hall ha hc hp => ?_, fun patterns ep hne hall ha hp => ?_⟩
  · rw [unmigrateMain_live env bc ew _ (by simp) hg hli hln,
      unmigrateUntrackLoop_abort env _ ts1 t ts2 e h1 h2]
  · rw [unmigrateMain_live env bc ew patterns hne hg hli hln,
      unmigrateUntrackLoop_success env _ patterns hall]
    simp [unmigrateFollowUps, ha]
  · rw [unmigrateMain_live env bc ew patterns hne hg hli hln,
      unmigrateUntrackLoop_success env _ patterns hall]
    simp [unmigrateFollowUps, ha, hc, hp]
  · rw [unmigrateMain_live env bc ew patterns hne hg hli hln,
      unmigrateUntrackLoop_success env _ patterns hall]
    cases hcom : env.runCommit <;> simp [unmigrateFollowUps, ha, hp, hcom]

/-- Witness for C9: each failure scenario is exercised at a concrete
environment in which the relevant external step really fails — the
untrack pass aborts at "mp3" after "zip" succeeded (so "pdf" is never
attempted and no follow-up runs), a stage failure aborts with exit 1, a
commit failure is recovered and the run still pushes and exits 0, and a
push failure aborts with exit 1. -/
theorem C9_witness :
    unmigrateMain envUntrackFails false false false false
        (["zip"] ++ "mp3" :: ["pdf"]) =
      ([OutLine.err
          ("Error: Failed to untrack pattern " ++ "mp3" ++ ": " ++
            "exit status 1")], 1) ∧
    unmigrateMain envStageFails false false false false ["mp3"] =
      ([OutLine.out "Renormalizing files...",
        OutLine.err ("Error: Failed to renormalize: " ++ "exit status 1")],
        1) ∧
    unmigrateMain envCommitFails false false false false ["mp3"] =
      ([OutLine.out "Renormalizing files...",
        OutLine.out "Committing changes...",
        OutLine.out "No changes to commit",
        OutLine.out "Pushing changes...",
        OutLine.out "Unmigration complete!"], 0) ∧
    unmigrateMain envPushFails false false false false ["mp3"] =
      (OutLine.out "Renormalizing files..." ::
        (match envPushFails.runCommit with
          | some _ => [OutLine.out "Committing changes...",
                       OutLine.out "No changes to commit"]
          | none => [OutLine.out "Committing changes..."]) ++
        [OutLine.out "Pushing changes...",
         OutLine.err ("Error: Failed to push: " ++ "exit status 1")], 1) :=
  ⟨(C9_followup_policy envUntrackFails false false rfl rfl rfl).1
      ["zip"] "mp3" ["pdf"] "exit status 1" (by decide) (by decide),
    (C9_followup_policy envStageFails false false rfl rfl rfl).2.1
      ["mp3"] "exit status 1" (by simp) (by decide) rfl,
    (C9_followup_policy envCommitFails false false rfl rfl rfl).2.2.1
      ["mp3"] "exit status 1" (by simp) (by decide) rfl rfl rfl,
    (C9_followup_policy envPushFails false false rfl rfl rfl).2.2.2
      ["mp3"] "exit status 1" (by simp) (by decide) rfl rfl⟩

/-- Claim C10: in live mode with an empty token list and a command label
that is neither of the two list operations, `Execute` performs no
invocation at all and returns success — the precondition violation is a
silent no-op inside the core, not an error. -/
theorem C10_empty_nonlist_noop
    (runner : String → List String → Option String) (opts : Options)
    (hdry : opts.dryRun = false)
    (h1 : opts.command ≠ "git ls-files")
    (h2 : opts.command ≠ "git lfs ls-files") :
    Execute runner [] opts = ([], none) := by
  rw [Execute, if_neg (by simp [hdry]), if_neg (by simp [h1, h2])]
  rfl

/-- Witness for C10: at the command label "git lfs track" with an empty
token list, `Execute` produces no events and no error. -/
theorem C10_witness :
    (⟨false, false, false, "git lfs track"⟩ : Options).dryRun = false ∧
    (⟨false, false, false, "git lfs track"⟩ : Options).command ≠
      "git ls-files" ∧
    (⟨false, false, false, "git lfs track"⟩ : Options).command ≠
      "git lfs ls-files" ∧
    Execute runnerAllOk [] ⟨false, false, false, "git lfs track"⟩ =
      ([], none) :=
  ⟨rfl, by decide, by decide,
    C10_empty_nonlist_noop runnerAllOk
      ⟨false, false, false, "git lfs track"⟩ rfl (by decide) (by decide)⟩

end GitLfsScripts
